import Mathlib

/-!
Verification of the FluidTools embedding service (`src/modal_service/app.py`).

The service keeps, per session, one vector collection named `tools_<sessionId>`
in a backend store (Qdrant).  Indexing recreates the session collection, embeds
one composite document per tool in a single batched call, and upserts points
with ascending ids; search embeds the query and returns the top-k names by
descending similarity, degrading to an empty list on any backend error; delete
removes the collection, treating failures as a no-op.

The embedding model and the vector backend are external collaborators.  The
model is abstracted as a function into an arbitrary vector type together with a
similarity score; the backend is a named map of collections plus an
availability flag (`up = false` models an unreachable store, whose every
operation fails with `BErr.unavailable`).  Every service function also returns
the list of embedding / backend calls it issued, so that call-counting
properties (one batched embedding call, a single upsert write, no backend call
before validation) are provable.
-/

/-- A tool as declared in the request model: name, description, and an opaque,
uninterpreted parameter schema (`parameters: Optional[Dict[str, Any]]`). -/
structure Tool where
  name : String
  description : String
  parameters : Option String := none
deriving Repr, DecidableEq

/-- Model of `IndexRequest`: session id plus tool list. -/
structure IndexRequest where
  session_id : String
  tools : List Tool
deriving Repr, DecidableEq

/-- Model of `IndexResponse`: inserted count plus session id. -/
structure IndexResponse where
  indexed_count : Nat
  session_id : String
deriving Repr, DecidableEq

/-- Model of `SearchRequest`: session id, query, and top-k (default 15). -/
structure SearchRequest where
  session_id : String
  query : String
  top_k : Nat := 15
deriving Repr, DecidableEq

/-- Model of `SearchResult`: a tool name with its similarity score. -/
structure SearchResult where
  name : String
  score : ℚ
deriving Repr, DecidableEq

/-- Model of `SearchResponse`: the ranked result list. -/
structure SearchResponse where
  tools : List SearchResult
deriving Repr, DecidableEq

/-- Model of `DeleteResponse`: whether a collection was removed. -/
structure DeleteResponse where
  deleted : Bool
deriving Repr, DecidableEq

/-- The payload stored with each point: `{"name": ..., "description": ...}`. -/
structure Payload where
  name : String
  description : String
deriving Repr, DecidableEq

/-- A stored point: integer id, embedding vector, payload. -/
structure Point (V : Type) where
  id : Nat
  vector : V
  payload : Payload
deriving Repr, DecidableEq

/-- A scored point as returned by the backend similarity query. -/
structure ScoredPoint where
  id : Nat
  payload : Payload
  score : ℚ
deriving Repr, DecidableEq

/-- The external embedding capability: text to vector, plus the similarity the
backend computes between two vectors (cosine, held abstract). -/
structure EmbedModel (V : Type) where
  embed : String → V
  sim : V → V → ℚ

/-- Backend errors: collection missing, collection already present, or the
store unreachable (network / store failure). -/
inductive BErr where
  | notFound
  | conflict
  | unavailable
deriving Repr, DecidableEq

/-- Trace events: embedding calls and backend calls issued by the service. -/
inductive Ev where
  | embedSingle (text : String)
  | embedBatch (texts : List String)
  | bGetCollections
  | bCreate (nm : String)
  | bDelete (nm : String)
  | bUpsert (nm : String) (count : Nat)
  | bSearch (nm : String) (limit : Nat)
deriving Repr, DecidableEq

/-- Is the event an embedding call (single or batched)? -/
def Ev.isEmbed : Ev → Bool
  | .embedSingle _ => true
  | .embedBatch _ => true
  | _ => false

/-- Is the event a backend call? -/
def Ev.isBackend : Ev → Bool
  | .embedSingle _ => false
  | .embedBatch _ => false
  | _ => true

/-- Is the event an upsert write? -/
def Ev.isUpsert : Ev → Bool
  | .bUpsert _ _ => true
  | _ => false

/-- The backend store: an association list of named collections, plus an
availability flag; `up = false` models store/network failure, under which
every backend operation fails with `BErr.unavailable`. -/
structure Store (V : Type) where
  colls : List (String × List (Point V))
  up : Bool
deriving Repr, DecidableEq

/-- First-match lookup in the association list of collections. -/
def findC {V : Type} : List (String × List (Point V)) → String → Option (List (Point V))
  | [], _ => none
  | (k, v) :: rest, nm => if k = nm then some v else findC rest nm

/-- Remove every entry with the given name. -/
def delAllC {V : Type} (nm : String) : List (String × List (Point V)) → List (String × List (Point V))
  | [] => []
  | (k, v) :: rest => if k = nm then delAllC nm rest else (k, v) :: delAllC nm rest

/-- The collection stored for a name, if any. -/
def getColl {V : Type} (s : Store V) (nm : String) : Option (List (Point V)) :=
  findC s.colls nm

/-- Names of all collections in the store. -/
def collNames {V : Type} (s : Store V) : List String :=
  s.colls.map (fun c => c.1)

/-- Backend `get_collections`: list the collection names, or fail when unreachable. -/
def qGetCollections {V : Type} (s : Store V) : Except BErr (List String) × List Ev :=
  if s.up then (.ok (collNames s), [.bGetCollections])
  else (.error .unavailable, [.bGetCollections])

/-- Backend `create_collection`: fails if unreachable or already present. -/
def qCreateCollection {V : Type} (s : Store V) (nm : String) : Except BErr (Store V) × List Ev :=
  if s.up then
    match getColl s nm with
    | some _ => (.error .conflict, [.bCreate nm])
    | none => (.ok ⟨(nm, []) :: s.colls, s.up⟩, [.bCreate nm])
  else (.error .unavailable, [.bCreate nm])

/-- Backend `delete_collection`: fails if unreachable or missing. -/
def qDeleteCollection {V : Type} (s : Store V) (nm : String) : Except BErr (Store V) × List Ev :=
  if s.up then
    match getColl s nm with
    | some _ => (.ok ⟨delAllC nm s.colls, s.up⟩, [.bDelete nm])
    | none => (.error .notFound, [.bDelete nm])
  else (.error .unavailable, [.bDelete nm])

/-- Upsert by id into an existing collection: points whose id is re-used are
replaced, fresh ids are appended in order. -/
def upsertPts {V : Type} (old new : List (Point V)) : List (Point V) :=
  old.filter (fun p => new.all (fun q => q.id ≠ p.id)) ++ new

/-- Backend `upsert`: single batched write; fails if unreachable or the
collection is missing. -/
def qUpsert {V : Type} (s : Store V) (nm : String) (pts : List (Point V)) :
    Except BErr (Store V) × List Ev :=
  if s.up then
    match getColl s nm with
    | some old => (.ok ⟨(nm, upsertPts old pts) :: delAllC nm s.colls, s.up⟩,
        [.bUpsert nm pts.length])
    | none => (.error .notFound, [.bUpsert nm pts.length])
  else (.error .unavailable, [.bUpsert nm pts.length])

/-- Score every point of a collection against the query vector. -/
def scorePoints {V : Type} (E : EmbedModel V) (qv : V) (pts : List (Point V)) :
    List ScoredPoint :=
  pts.map (fun p => ⟨p.id, p.payload, E.sim qv p.vector⟩)

/-- Insert into a descending-sorted list, placing the new element before the
first existing element whose score is not larger; since insertion proceeds
from the back of the input, ties keep the original order (stable). -/
def insertDesc (x : ScoredPoint) : List ScoredPoint → List ScoredPoint
  | [] => [x]
  | y :: ys => if y.score ≤ x.score then x :: y :: ys else y :: insertDesc x ys

/-- Stable sort by descending score. -/
def sortDesc (l : List ScoredPoint) : List ScoredPoint :=
  l.foldr insertDesc []

/-- Backend similarity query: ranks the collection by descending score (stable
on ties) and returns at most `limit` results; fails if unreachable or the
collection is missing. -/
def qSearch {V : Type} (E : EmbedModel V) (s : Store V) (nm : String) (qv : V)
    (limit : Nat) : Except BErr (List ScoredPoint) × List Ev :=
  if s.up then
    match getColl s nm with
    | some pts => (.ok ((sortDesc (scorePoints E qv pts)).take limit), [.bSearch nm limit])
    | none => (.error .notFound, [.bSearch nm limit])
  else (.error .unavailable, [.bSearch nm limit])

/-- Model of `generate_embedding`: embed one text (issues one single-embedding call). -/
def generate_embedding {V : Type} (E : EmbedModel V) (text : String) : V × List Ev :=
  (E.embed text, [.embedSingle text])

/-- Model of `generate_embeddings_batch`: embed many texts in one batched call. -/
def generate_embeddings_batch {V : Type} (E : EmbedModel V) (texts : List String) :
    List V × List Ev :=
  (texts.map E.embed, [.embedBatch texts])

/-- The collection name derived from a session id: `f"tools_{session_id}"`. -/
def collectionName (session_id : String) : String :=
  "tools_" ++ session_id

/-- The composite document embedded per tool: `f"{tool.name}: {tool.description}"`. -/
def compositeDoc (t : Tool) : String :=
  t.name ++ ": " ++ t.description

/-- Model of `EmbeddingService.create_collection`: if a collection for the session
exists, delete it, then create a fresh one; backend errors propagate. -/
def create_collection {V : Type} (s : Store V) (session_id : String) :
    Except BErr (Store V) × List Ev :=
  let nm := collectionName session_id
  match qGetCollections s with
  | (.error e, ev1) => (.error e, ev1)
  | (.ok names, ev1) =>
    if nm ∈ names then
      match qDeleteCollection s nm with
      | (.error e, ev2) => (.error e, ev1 ++ ev2)
      | (.ok s1, ev2) =>
        match qCreateCollection s1 nm with
        | (.error e, ev3) => (.error e, ev1 ++ ev2 ++ ev3)
        | (.ok s2, ev3) => (.ok s2, ev1 ++ ev2 ++ ev3)
    else
      match qCreateCollection s nm with
      | (.error e, ev2) => (.error e, ev1 ++ ev2)
      | (.ok s2, ev2) => (.ok s2, ev1 ++ ev2)

/-- Model of `EmbeddingService.delete_collection`: try to delete; every backend error is
caught and reported as `false` (the store is left as it was). -/
def delete_collection {V : Type} (s : Store V) (session_id : String) :
    (Store V × Bool) × List Ev :=
  let nm := collectionName session_id
  match qDeleteCollection s nm with
  | (.ok s1, ev) => ((s1, true), ev)
  | (.error _, ev) => ((s, false), ev)

/-- The `PointStruct` construction from `enumerate(zip(tools, embeddings))`:
ascending ids from `i`, payload `{name, description}`. -/
def mkPoints {V : Type} : Nat → List (Tool × V) → List (Point V)
  | _, [] => []
  | i, (t, v) :: rest => ⟨i, v, ⟨t.name, t.description⟩⟩ :: mkPoints (i + 1) rest

/-- Model of `EmbeddingService.insert_points`: build composite documents, embed them in
one batched call, build points `0..n-1`, and upsert them as a single write;
backend errors propagate. -/
def insert_points {V : Type} (E : EmbedModel V) (s : Store V) (session_id : String)
    (tools : List Tool) : Except BErr (Store V × Nat) × List Ev :=
  let nm := collectionName session_id
  let texts := tools.map compositeDoc
  let embRes := generate_embeddings_batch E texts
  let points := mkPoints 0 (tools.zip embRes.1)
  match qUpsert s nm points with
  | (.error e, ev2) => (.error e, embRes.2 ++ ev2)
  | (.ok s1, ev2) => (.ok (s1, points.length), embRes.2 ++ ev2)

/-- Model of `EmbeddingService.search_similar`: embed the query and run the bounded
similarity query; any error yields the empty result list (fail-open). -/
def search_similar {V : Type} (E : EmbedModel V) (s : Store V) (session_id : String)
    (query : String) (top_k : Nat) : List SearchResult × List Ev :=
  let nm := collectionName session_id
  let embRes := generate_embedding E query
  match qSearch E s nm embRes.1 top_k with
  | (.ok results, ev2) =>
      (results.map (fun r => ⟨r.payload.name, r.score⟩), embRes.2 ++ ev2)
  | (.error _, ev2) => ([], embRes.2 ++ ev2)

/-- An HTTP-level error as raised by the index endpoint (`HTTPException`). -/
structure HErr where
  status_code : Nat
  detail : BErr
deriving Repr, DecidableEq

/-- The `/index` endpoint: `create_collection` then `insert_points`; any failure is
re-raised as a 500 error, so index failures propagate to the caller. -/
def index_endpoint {V : Type} (E : EmbedModel V) (s : Store V) (req : IndexRequest) :
    Except HErr (Store V × IndexResponse) × List Ev :=
  match create_collection s req.session_id with
  | (.error e, ev1) => (.error ⟨500, e⟩, ev1)
  | (.ok s1, ev1) =>
    match insert_points E s1 req.session_id req.tools with
    | (.error e, ev2) => (.error ⟨500, e⟩, ev1 ++ ev2)
    | (.ok (s2, count), ev2) => (.ok (s2, ⟨count, req.session_id⟩), ev1 ++ ev2)

/-- The `/search` endpoint: always returns a `SearchResponse`; `search_similar` is
already total (fail-open) and the endpoint's own catch-all also returns an
empty list, so no error ever surfaces. -/
def search_endpoint {V : Type} (E : EmbedModel V) (s : Store V) (req : SearchRequest) :
    SearchResponse × List Ev :=
  let res := search_similar E s req.session_id req.query req.top_k
  (⟨res.1⟩, res.2)

/-- The `/session/{session_id}` DELETE endpoint: wraps `delete_collection`; every
failure (including backend unavailability) is swallowed into `deleted=false`. -/
def delete_session_endpoint {V : Type} (s : Store V) (session_id : String) :
    (Store V × DeleteResponse) × List Ev :=
  let res := delete_collection s session_id
  ((res.1.1, ⟨res.1.2⟩), res.2)

/-- A raw (pre-validation) tool object, fields possibly missing. -/
structure RawTool where
  name : Option String
  description : Option String
  parameters : Option String := none
deriving Repr, DecidableEq

/-- A raw `/index` body, fields possibly missing. -/
structure RawIndexRequest where
  session_id : Option String
  tools : Option (List RawTool)
deriving Repr, DecidableEq

/-- A raw `/search` body, fields possibly missing. -/
structure RawSearchRequest where
  session_id : Option String
  query : Option String
  top_k : Option Nat := none
deriving Repr, DecidableEq

/-- A pydantic validation failure (FastAPI's 422). -/
structure VErr where
  status_code : Nat
deriving Repr, DecidableEq

/-- Validate one tool: `name` and `description` are required, `parameters` is
optional passthrough. -/
def parseTool (r : RawTool) : Except VErr Tool :=
  match r.name, r.description with
  | some n, some d => .ok ⟨n, d, r.parameters⟩
  | _, _ => .error ⟨422⟩

/-- Validate the tool list element-wise. -/
def parseTools : List RawTool → Except VErr (List Tool)
  | [] => .ok []
  | r :: rest =>
    match parseTool r, parseTools rest with
    | .ok t, .ok ts => .ok (t :: ts)
    | .error e, _ => .error e
    | _, .error e => .error e

/-- Validate an `/index` body against the `IndexRequest` model. -/
def parseIndexRequest (r : RawIndexRequest) : Except VErr IndexRequest :=
  match r.session_id, r.tools with
  | some sid, some ts =>
    match parseTools ts with
    | .ok tools => .ok ⟨sid, tools⟩
    | .error e => .error e
  | _, _ => .error ⟨422⟩

/-- Validate a `/search` body against the `SearchRequest` model: `session_id`
and `query` are required (an empty string is a valid `str`), `top_k` defaults
to 15. -/
def parseSearchRequest (r : RawSearchRequest) : Except VErr SearchRequest :=
  match r.session_id, r.query with
  | some sid, some q => .ok ⟨sid, q, r.top_k.getD 15⟩
  | _, _ => .error ⟨422⟩

/-- The full `/index` pipeline: validation, then the endpoint; a validation
failure issues no embedding or backend call. -/
def handleIndex {V : Type} (E : EmbedModel V) (s : Store V) (raw : RawIndexRequest) :
    Except VErr (Except HErr (Store V × IndexResponse)) × List Ev :=
  match parseIndexRequest raw with
  | .error e => (.error e, [])
  | .ok req =>
    let res := index_endpoint E s req
    (.ok res.1, res.2)

/-- The full `/search` pipeline: validation, then the endpoint; a validation
failure issues no embedding or backend call. -/
def handleSearch {V : Type} (E : EmbedModel V) (s : Store V) (raw : RawSearchRequest) :
    Except VErr SearchResponse × List Ev :=
  match parseSearchRequest raw with
  | .error e => (.error e, [])
  | .ok req =>
    let res := search_endpoint E s req
    (.ok res.1, res.2)

/-- The points `insert_points` builds for a tool list: composite documents,
batch-embedded, paired back with the tools, ids ascending from 0. -/
def indexedPoints {V : Type} (E : EmbedModel V) (tools : List Tool) : List (Point V) :=
  mkPoints 0 (tools.zip ((tools.map compositeDoc).map E.embed))

/-- The (name, description) part of a tool — what indexing actually keeps. -/
def stripT (t : Tool) : String × String :=
  (t.name, t.description)

/-- A concrete trivial embedding model over the unit vector type, used to
evaluate the development on closed inputs. -/
def unitModel : EmbedModel Unit :=
  ⟨fun _ => (), fun _ _ => 0⟩

lemma findC_delAllC {V : Type} (nm nm' : String) (l : List (String × List (Point V))) :
    findC (delAllC nm l) nm' = if nm' = nm then none else findC l nm' := by
  induction l with
  | nil => simp [delAllC, findC]
  | cons hd tl ih =>
    obtain ⟨k, v⟩ := hd
    by_cases hk : k = nm
    · subst hk
      by_cases h2 : nm' = k
      · subst h2
        simpa [delAllC] using ih
      · have hk2 : ¬ (k = nm') := fun h => h2 h.symm
        simp [delAllC, findC, h2, hk2, ih]
    · by_cases h2 : k = nm'
      · subst h2
        simp [delAllC, findC, hk]
      · simp [delAllC, findC, hk, h2, ih]

lemma findC_eq_none_iff {V : Type} (nm : String) (l : List (String × List (Point V))) :
    findC l nm = none ↔ nm ∉ l.map Prod.fst := by
  induction l with
  | nil => simp [findC]
  | cons hd tl ih =>
    obtain ⟨k, v⟩ := hd
    by_cases hk : k = nm
    · subst hk
      simp [findC]
    · simp only [findC, if_neg hk, ih, List.map_cons, List.mem_cons]
      constructor
      · intro h hc
        rcases hc with h1 | h2
        · exact hk h1.symm
        · exact h h2
      · intro h hm
        exact h (Or.inr hm)

lemma delAllC_of_not_mem {V : Type} (nm : String) (l : List (String × List (Point V)))
    (h : nm ∉ l.map Prod.fst) : delAllC nm l = l := by
  induction l with
  | nil => rfl
  | cons hd tl ih =>
    obtain ⟨k, v⟩ := hd
    rw [List.map_cons] at h
    have hk : ¬ (k = nm) := fun hkk => h (by rw [hkk]; exact List.mem_cons_self _ _)
    have htl : nm ∉ tl.map Prod.fst := fun hm => h (List.mem_cons_of_mem _ hm)
    simp [delAllC, hk, ih htl]

lemma not_mem_map_fst_delAllC {V : Type} (nm : String) (l : List (String × List (Point V))) :
    nm ∉ (delAllC nm l).map Prod.fst := by
  induction l with
  | nil => simp [delAllC]
  | cons hd tl ih =>
    obtain ⟨k, v⟩ := hd
    by_cases hk : k = nm
    · simpa [delAllC, hk] using ih
    · rw [delAllC, if_neg hk, List.map_cons]
      intro hmem
      rcases List.mem_cons.mp hmem with h1 | h2
      · exact hk h1.symm
      · exact ih h2

lemma delAllC_delAllC {V : Type} (nm : String) (l : List (String × List (Point V))) :
    delAllC nm (delAllC nm l) = delAllC nm l :=
  delAllC_of_not_mem nm _ (not_mem_map_fst_delAllC nm l)

lemma upsertPts_nil {V : Type} (pts : List (Point V)) : upsertPts [] pts = pts := by
  simp [upsertPts]

lemma mkPoints_length {V : Type} (i : Nat) (l : List (Tool × V)) :
    (mkPoints i l).length = l.length := by
  induction l generalizing i with
  | nil => rfl
  | cons hd tl ih =>
    obtain ⟨t, v⟩ := hd
    simp [mkPoints, ih]

lemma mkPoints_map_id {V : Type} (i : Nat) (l : List (Tool × V)) :
    (mkPoints i l).map (fun p => p.id) = List.range' i l.length := by
  induction l generalizing i with
  | nil => rfl
  | cons hd tl ih =>
    obtain ⟨t, v⟩ := hd
    simp [mkPoints, ih, List.range'_succ]

lemma mkPoints_map_payload {V : Type} (i : Nat) (l : List (Tool × V)) :
    (mkPoints i l).map (fun p => p.payload) =
      l.map (fun tv => ⟨tv.1.name, tv.1.description⟩) := by
  induction l generalizing i with
  | nil => rfl
  | cons hd tl ih =>
    obtain ⟨t, v⟩ := hd
    simp [mkPoints, ih]

lemma indexedPoints_length {V : Type} (E : EmbedModel V) (tools : List Tool) :
    (indexedPoints E tools).length = tools.length := by
  simp [indexedPoints, mkPoints_length]

lemma indexedPoints_map_id {V : Type} (E : EmbedModel V) (tools : List Tool) :
    (indexedPoints E tools).map (fun p => p.id) = List.range tools.length := by
  rw [indexedPoints, mkPoints_map_id, List.range_eq_range']
  congr 1
  simp

lemma indexedPoints_map_payload {V : Type} (E : EmbedModel V) (tools : List Tool) :
    (indexedPoints E tools).map (fun p => p.payload) =
      tools.map (fun t => ⟨t.name, t.description⟩) := by
  rw [indexedPoints, mkPoints_map_payload]
  have hz : (tools.zip ((tools.map compositeDoc).map E.embed)).map
      (fun tv => (⟨tv.1.name, tv.1.description⟩ : Payload)) =
      ((tools.zip ((tools.map compositeDoc).map E.embed)).map Prod.fst).map
        (fun t => (⟨t.name, t.description⟩ : Payload)) := by
    simp [List.map_map]
  rw [hz, List.map_fst_zip]
  simp

lemma indexedPoints_map_name {V : Type} (E : EmbedModel V) (tools : List Tool) :
    (indexedPoints E tools).map (fun p => p.payload.name) = tools.map (fun t => t.name) := by
  have h : (indexedPoints E tools).map (fun p => p.payload.name) =
      ((indexedPoints E tools).map (fun p => p.payload)).map (fun pl => pl.name) := by
    simp [List.map_map]
  rw [h, indexedPoints_map_payload]
  simp [List.map_map]

lemma mem_insertDesc (x y : ScoredPoint) (l : List ScoredPoint) :
    y ∈ insertDesc x l ↔ y = x ∨ y ∈ l := by
  induction l with
  | nil => simp [insertDesc]
  | cons hd tl ih =>
    by_cases h : hd.score ≤ x.score
    · simp [insertDesc, h]
    · simp [insertDesc, h, ih]
      tauto

lemma mem_sortDesc (y : ScoredPoint) (l : List ScoredPoint) :
    y ∈ sortDesc l ↔ y ∈ l := by
  induction l with
  | nil => simp [sortDesc]
  | cons hd tl ih =>
    simp only [sortDesc, List.foldr_cons]
    rw [mem_insertDesc]
    simp only [sortDesc] at ih
    rw [ih, List.mem_cons]

lemma pairwise_insertDesc (x : ScoredPoint) (l : List ScoredPoint)
    (h : List.Pairwise (fun a b => b.score ≤ a.score) l) :
    List.Pairwise (fun a b => b.score ≤ a.score) (insertDesc x l) := by
  induction l with
  | nil => simp [insertDesc]
  | cons hd tl ih =>
    rcases List.pairwise_cons.mp h with ⟨hhd, htl⟩
    by_cases hle : hd.score ≤ x.score
    · rw [insertDesc, if_pos hle]
      refine List.pairwise_cons.mpr ⟨?_, h⟩
      intro b hb
      rcases List.mem_cons.mp hb with h1 | h2
      · rw [h1]; exact hle
      · exact le_trans (hhd b h2) hle
    · rw [insertDesc, if_neg hle]
      refine List.pairwise_cons.mpr ⟨?_, ih htl⟩
      intro b hb
      rcases (mem_insertDesc x b tl).mp hb with h1 | h2
      · rw [h1]; exact le_of_not_le hle
      · exact hhd b h2

lemma pairwise_sortDesc (l : List ScoredPoint) :
    List.Pairwise (fun a b => b.score ≤ a.score) (sortDesc l) := by
  induction l with
  | nil => simp [sortDesc]
  | cons hd tl ih =>
    simpa only [sortDesc, List.foldr_cons] using pairwise_insertDesc hd _ ih

lemma filter_insertDesc_pos (x : ScoredPoint) (c : ℚ) (l : List ScoredPoint)
    (hx : x.score = c) :
    (insertDesc x l).filter (fun p => decide (p.score = c)) =
      x :: l.filter (fun p => decide (p.score = c)) := by
  induction l with
  | nil => simp [insertDesc, hx]
  | cons hd tl ih =>
    by_cases hle : hd.score ≤ x.score
    · rw [insertDesc, if_pos hle]
      simp [hx]
    · rw [insertDesc, if_neg hle]
      have hne : ¬ (hd.score = c) := by
        rw [← hx]
        intro heq
        exact hle (le_of_eq heq)
      simp only [List.filter_cons]
      simp [hne, ih]

lemma filter_insertDesc_neg (x : ScoredPoint) (c : ℚ) (l : List ScoredPoint)
    (hx : ¬ (x.score = c)) :
    (insertDesc x l).filter (fun p => decide (p.score = c)) =
      l.filter (fun p => decide (p.score = c)) := by
  induction l with
  | nil => simp [insertDesc, hx]
  | cons hd tl ih =>
    by_cases hle : hd.score ≤ x.score
    · rw [insertDesc, if_pos hle]
      simp [hx]
    · rw [insertDesc, if_neg hle]
      simp only [List.filter_cons]
      rw [ih]

/-- Stability of the backend ranking: within one score class, the ranked order
is exactly the stored (insertion) order. -/
lemma filter_sortDesc (l : List ScoredPoint) (c : ℚ) :
    (sortDesc l).filter (fun p => decide (p.score = c)) =
      l.filter (fun p => decide (p.score = c)) := by
  induction l with
  | nil => simp [sortDesc]
  | cons hd tl ih =>
    simp only [sortDesc, List.foldr_cons] at ih ⊢
    by_cases hx : hd.score = c
    · rw [filter_insertDesc_pos hd c _ hx, ih, List.filter_cons]
      simp [hx]
    · rw [filter_insertDesc_neg hd c _ hx, ih, List.filter_cons]
      simp [hx]

lemma collectionName_injective (a b : String) (h : collectionName a = collectionName b) :
    a = b := by
  have hd : ("tools_" : String).data ++ a.data = ("tools_" : String).data ++ b.data := by
    have := congrArg String.data h
    simpa [collectionName, String.data_append] using this
  exact String.ext (List.append_cancel_left hd)

/-- With the backend reachable, `create_collection` succeeds and leaves exactly
one fresh empty collection for the session (any prior one removed). -/
lemma create_collection_ok {V : Type} (s : Store V) (sid : String) (h : s.up = true) :
    (create_collection s sid).1 =
      .ok ⟨(collectionName sid, []) :: delAllC (collectionName sid) s.colls, true⟩ := by
  by_cases hmem : collectionName sid ∈ collNames s
  · have hne : findC s.colls (collectionName sid) ≠ none :=
      fun hn => (findC_eq_none_iff _ _).mp hn hmem
    rcases Option.ne_none_iff_exists'.mp hne with ⟨v, hv⟩
    simp [create_collection, qGetCollections, qDeleteCollection, qCreateCollection,
      h, hmem, getColl, hv, findC_delAllC]
  · have hv : findC s.colls (collectionName sid) = none :=
      (findC_eq_none_iff _ _).mpr hmem
    simp [create_collection, qGetCollections, qCreateCollection, h, hmem, getColl, hv,
      delAllC_of_not_mem _ _ hmem]

/-- With the backend unreachable, `create_collection` fails. -/
lemma create_collection_down {V : Type} (s : Store V) (sid : String) (h : s.up = false) :
    (create_collection s sid).1 = .error .unavailable := by
  simp [create_collection, qGetCollections, h]

/-- The events of `create_collection` contain no embedding call and no upsert. -/
lemma create_collection_events {V : Type} (s : Store V) (sid : String) :
    ∀ e ∈ (create_collection s sid).2, e.isEmbed = false ∧ e.isUpsert = false := by
  intro e he
  by_cases h : s.up = true
  · by_cases hmem : collectionName sid ∈ collNames s
    · have hne : findC s.colls (collectionName sid) ≠ none :=
        fun hn => (findC_eq_none_iff _ _).mp hn hmem
      rcases Option.ne_none_iff_exists'.mp hne with ⟨v, hv⟩
      simp [create_collection, qGetCollections, qDeleteCollection, qCreateCollection,
        h, hmem, getColl, hv, findC_delAllC] at he
      rcases he with he | he | he <;> simp [he, Ev.isEmbed, Ev.isUpsert]
    · have hv : findC s.colls (collectionName sid) = none :=
        (findC_eq_none_iff _ _).mpr hmem
      simp [create_collection, qGetCollections, qCreateCollection, h, hmem, getColl, hv] at he
      rcases he with he | he <;> simp [he, Ev.isEmbed, Ev.isUpsert]
  · simp [create_collection, qGetCollections, h] at he
    simp [he, Ev.isEmbed, Ev.isUpsert]

/-- On a store holding an empty collection for the session, `insert_points`
performs one batched embedding call and one upsert, stores exactly the built
points, and returns their count. -/
lemma insert_points_ok {V : Type} (E : EmbedModel V) (s : Store V) (sid : String)
    (tools : List Tool) (h : s.up = true)
    (hcoll : getColl s (collectionName sid) = some []) :
    insert_points E s sid tools =
      (.ok (⟨(collectionName sid, indexedPoints E tools) ::
          delAllC (collectionName sid) s.colls, true⟩, (indexedPoints E tools).length),
        [.embedBatch (tools.map compositeDoc),
         .bUpsert (collectionName sid) (indexedPoints E tools).length]) := by
  simp [insert_points, generate_embeddings_batch, qUpsert, h, hcoll, upsertPts_nil,
    indexedPoints]

/-- With the backend reachable, `/index` succeeds: the session collection is
recreated to hold exactly the freshly built points and the response reports
the tool count. -/
lemma index_endpoint_ok {V : Type} (E : EmbedModel V) (s : Store V) (sid : String)
    (tools : List Tool) (h : s.up = true) :
    (index_endpoint E s ⟨sid, tools⟩).1 =
      .ok (⟨(collectionName sid, indexedPoints E tools) ::
          delAllC (collectionName sid) s.colls, true⟩, ⟨tools.length, sid⟩) := by
  have hc := create_collection_ok s sid h
  rcases hcc : create_collection s sid with ⟨res, ev1⟩
  rw [hcc] at hc
  simp only at hc
  subst hc
  have hcoll : getColl (⟨(collectionName sid, []) ::
      delAllC (collectionName sid) s.colls, true⟩ : Store V) (collectionName sid) = some [] := by
    simp [getColl, findC]
  have hi := insert_points_ok E (⟨(collectionName sid, []) ::
      delAllC (collectionName sid) s.colls, true⟩ : Store V) sid tools rfl hcoll
  simp [index_endpoint, hcc, hi, delAllC, delAllC_delAllC, indexedPoints_length,
    indexedPoints, mkPoints_length]

/-- With the backend unreachable, `/index` fails with a 500 error. -/
lemma index_endpoint_down {V : Type} (E : EmbedModel V) (s : Store V) (req : IndexRequest)
    (h : s.up = false) :
    (index_endpoint E s req).1 = .error ⟨500, .unavailable⟩ := by
  have hc := create_collection_down s req.session_id h
  rcases hcc : create_collection s req.session_id with ⟨res, ev1⟩
  rw [hcc] at hc
  simp only at hc
  subst hc
  simp [index_endpoint, hcc]

/-- A successful `/index` implies the backend was reachable. -/
lemma index_endpoint_ok_up {V : Type} (E : EmbedModel V) (s : Store V) (req : IndexRequest)
    (x : Store V × IndexResponse) (h : (index_endpoint E s req).1 = .ok x) :
    s.up = true := by
  by_cases hup : s.up = true
  · exact hup
  · rw [index_endpoint_down E s req (Bool.not_eq_true s.up ▸ hup)] at h
    exact absurd h (by simp)

/-- The embedding calls of a reachable `/index`: exactly one, batched over all
composite documents — never per-tool calls. -/
lemma index_endpoint_events_embed {V : Type} (E : EmbedModel V) (s : Store V)
    (sid : String) (tools : List Tool) (h : s.up = true) :
    ((index_endpoint E s ⟨sid, tools⟩).2).filter (fun e => e.isEmbed) =
      [.embedBatch (tools.map compositeDoc)] := by
  have hc := create_collection_ok s sid h
  rcases hcc : create_collection s sid with ⟨res, ev1⟩
  rw [hcc] at hc
  simp only at hc
  subst hc
  have hev1 : ev1.filter (fun e => e.isEmbed) = [] := by
    rw [List.filter_eq_nil_iff]
    intro a ha
    have := create_collection_events s sid a (by rw [hcc]; exact ha)
    simp [this.1]
  have hcoll : getColl (⟨(collectionName sid, []) ::
      delAllC (collectionName sid) s.colls, true⟩ : Store V) (collectionName sid) = some [] := by
    simp [getColl, findC]
  have hi := insert_points_ok E (⟨(collectionName sid, []) ::
      delAllC (collectionName sid) s.colls, true⟩ : Store V) sid tools rfl hcoll
  have hev : (index_endpoint E s ⟨sid, tools⟩).2 =
      ev1 ++ [.embedBatch (tools.map compositeDoc),
        .bUpsert (collectionName sid) (indexedPoints E tools).length] := by
    simp [index_endpoint, hcc, hi]
  rw [hev, List.filter_append, hev1]
  rfl

/-- The writes of a reachable `/index`: a single batched upsert of all points. -/
lemma index_endpoint_events_upsert {V : Type} (E : EmbedModel V) (s : Store V)
    (sid : String) (tools : List Tool) (h : s.up = true) :
    ((index_endpoint E s ⟨sid, tools⟩).2).filter (fun e => e.isUpsert) =
      [.bUpsert (collectionName sid) tools.length] := by
  have hc := create_collection_ok s sid h
  rcases hcc : create_collection s sid with ⟨res, ev1⟩
  rw [hcc] at hc
  simp only at hc
  subst hc
  have hev1 : ev1.filter (fun e => e.isUpsert) = [] := by
    rw [List.filter_eq_nil_iff]
    intro a ha
    have := create_collection_events s sid a (by rw [hcc]; exact ha)
    simp [this.2]
  have hcoll : getColl (⟨(collectionName sid, []) ::
      delAllC (collectionName sid) s.colls, true⟩ : Store V) (collectionName sid) = some [] := by
    simp [getColl, findC]
  have hi := insert_points_ok E (⟨(collectionName sid, []) ::
      delAllC (collectionName sid) s.colls, true⟩ : Store V) sid tools rfl hcoll
  have hev : (index_endpoint E s ⟨sid, tools⟩).2 =
      ev1 ++ [.embedBatch (tools.map compositeDoc),
        .bUpsert (collectionName sid) (indexedPoints E tools).length] := by
    simp [index_endpoint, hcc, hi]
  rw [hev, List.filter_append, hev1, indexedPoints_length]
  rfl

/-- Fail-open: if the session has no collection or the backend is unreachable,
`search_similar` returns the empty list. -/
lemma search_similar_empty {V : Type} (E : EmbedModel V) (s : Store V) (sid : String)
    (q : String) (k : Nat)
    (h : getColl s (collectionName sid) = none ∨ s.up = false) :
    (search_similar E s sid q k).1 = [] := by
  rcases h with h | h
  · by_cases hup : s.up = true
    · simp [search_similar, generate_embedding, qSearch, hup, h]
    · simp [search_similar, generate_embedding, qSearch, hup]
  · simp [search_similar, generate_embedding, qSearch, h]

/-- On a reachable store with a collection, `search_similar` returns the
ranked, truncated results over exactly the stored points. -/
lemma search_similar_found {V : Type} (E : EmbedModel V) (s : Store V) (sid : String)
    (q : String) (k : Nat) (pts : List (Point V)) (h : s.up = true)
    (hcoll : getColl s (collectionName sid) = some pts) :
    (search_similar E s sid q k).1 =
      ((sortDesc (scorePoints E (E.embed q) pts)).take k).map
        (fun r => ⟨r.payload.name, r.score⟩) := by
  simp [search_similar, generate_embedding, qSearch, h, hcoll]

/-- Every name a search returns occurs among the stored payload names. -/
lemma search_endpoint_names {V : Type} (E : EmbedModel V) (s : Store V)
    (req : SearchRequest) (pts : List (Point V))
    (hcoll : getColl s (collectionName req.session_id) = some pts) :
    ∀ r ∈ (search_endpoint E s req).1.tools,
      r.name ∈ pts.map (fun p => p.payload.name) := by
  intro r hr
  by_cases hup : s.up = true
  · rw [search_endpoint] at hr
    simp only at hr
    rw [search_similar_found E s req.session_id req.query req.top_k pts hup hcoll] at hr
    rcases List.mem_map.mp hr with ⟨sp, hsp, hrsp⟩
    have h1 : sp ∈ sortDesc (scorePoints E (E.embed req.query) pts) :=
      List.take_subset _ _ hsp
    have h2 : sp ∈ scorePoints E (E.embed req.query) pts :=
      (mem_sortDesc _ _).mp h1
    rcases List.mem_map.mp h2 with ⟨p, hp, hpsp⟩
    refine List.mem_map.mpr ⟨p, hp, ?_⟩
    rw [← hrsp, ← hpsp]
  · rw [search_endpoint] at hr
    simp only at hr
    rw [search_similar_empty E s req.session_id req.query req.top_k
      (Or.inr (Bool.not_eq_true s.up ▸ hup))] at hr
    exact absurd hr (List.not_mem_nil r)

/-- Reachable-backend characterization of `delete_collection`: remove the
collection and report `true` if present, report `false` leaving the store
unchanged if absent. -/
lemma delete_collection_cases {V : Type} (s : Store V) (sid : String) (h : s.up = true) :
    (getColl s (collectionName sid) ≠ none →
      delete_collection s sid =
        ((⟨delAllC (collectionName sid) s.colls, s.up⟩, true),
          [.bDelete (collectionName sid)])) ∧
    (getColl s (collectionName sid) = none →
      delete_collection s sid = ((s, false), [.bDelete (collectionName sid)])) := by
  constructor
  · intro hne
    rcases Option.ne_none_iff_exists'.mp hne with ⟨v, hv⟩
    simp [delete_collection, qDeleteCollection, h, hv]
  · intro hnone
    simp [delete_collection, qDeleteCollection, h, hnone]

/-- Unreachable backend: `delete_collection` swallows the failure and reports
`false` with the store unchanged. -/
lemma delete_collection_down {V : Type} (s : Store V) (sid : String) (h : s.up = false) :
    delete_collection s sid = ((s, false), [.bDelete (collectionName sid)]) := by
  simp [delete_collection, qDeleteCollection, h]

lemma getColl_build {V : Type} (nm nm' : String) (pts : List (Point V))
    (colls : List (String × List (Point V))) :
    getColl (⟨(nm, pts) :: delAllC nm colls, true⟩ : Store V) nm' =
      if nm' = nm then some pts else findC colls nm' := by
  by_cases hx : nm = nm'
  · subst hx
    simp [getColl, findC]
  · have hx2 : ¬ (nm' = nm) := fun hh => hx hh.symm
    simp [getColl, findC, hx, hx2, findC_delAllC]

/-- C1: every backend failure on search — the session collection missing
(never indexed, deleted, or indexing failed) or the store unreachable — is
silently downgraded: `search_similar` returns the empty list and the `/search`
endpoint returns a success-shaped response with an empty result list. -/
theorem search_fail_open {V : Type} (E : EmbedModel V) (s : Store V) (sid q : String)
    (k : Nat) (h : getColl s (collectionName sid) = none ∨ s.up = false) :
    (search_endpoint E s ⟨sid, q, k⟩).1 = ⟨[]⟩ ∧ (search_similar E s sid q k).1 = [] := by
  have he := search_similar_empty E s sid q k h
  exact ⟨by simp [search_endpoint, he], he⟩

/-- Witness for C1 at a concrete never-indexed session. -/
theorem search_fail_open_witness :
    (getColl (⟨[], true⟩ : Store Unit) (collectionName "s1") = none ∨
      (⟨[], true⟩ : Store Unit).up = false) ∧
    ((search_endpoint unitModel ⟨[], true⟩ ⟨"s1", "how", 5⟩).1 = ⟨[]⟩ ∧
      (search_similar unitModel ⟨[], true⟩ "s1" "how" 5).1 = []) :=
  ⟨Or.inl rfl, search_fail_open unitModel ⟨[], true⟩ "s1" "how" 5 (Or.inl rfl)⟩

/-- C5: search returns at most `top_k` results, scores are monotonically
non-increasing in result order, and the underlying ranking is stable — within
any one score class it preserves the stored insertion order. -/
theorem search_topk_sorted {V : Type} (E : EmbedModel V) (s : Store V) (sid q : String)
    (k : Nat) :
    ((search_endpoint E s ⟨sid, q, k⟩).1.tools).length ≤ k ∧
    List.Pairwise (fun a b => b.score ≤ a.score)
      (search_endpoint E s ⟨sid, q, k⟩).1.tools ∧
    ∀ (l : List ScoredPoint) (c : ℚ),
      (sortDesc l).filter (fun p => decide (p.score = c)) =
        l.filter (fun p => decide (p.score = c)) := by
  refine ⟨?_, ?_, fun l c => filter_sortDesc l c⟩
  · by_cases hup : s.up = true
    · rcases hg : getColl s (collectionName sid) with _ | pts
      · have := search_similar_empty E s sid q k (Or.inl hg)
        simp [search_endpoint, this]
      · have := search_similar_found E s sid q k pts hup hg
        simp only [search_endpoint, this, List.length_map, List.length_take]
        exact min_le_left _ _
    · have := search_similar_empty E s sid q k (Or.inr (Bool.not_eq_true s.up ▸ hup))
      simp [search_endpoint, this]
  · by_cases hup : s.up = true
    · rcases hg : getColl s (collectionName sid) with _ | pts
      · have := search_similar_empty E s sid q k (Or.inl hg)
        simp [search_endpoint, this]
      · have hf := search_similar_found E s sid q k pts hup hg
        simp only [search_endpoint, hf]
        refine List.pairwise_map.mpr ?_
        have hs : List.Pairwise (fun a b => b.score ≤ a.score)
            ((sortDesc (scorePoints E (E.embed q) pts)).take k) :=
          (pairwise_sortDesc _).sublist (List.take_sublist _ _)
        exact hs
    · have := search_similar_empty E s sid q k (Or.inr (Bool.not_eq_true s.up ▸ hup))
      simp [search_endpoint, this]

/-- C6: with the backend reachable, deleting a session removes its collection
and reports `true` when it exists, is a successful no-op reporting `false`
when it does not, and a repeated delete is a no-op reporting `false` — the
endpoint never surfaces an error. -/
theorem delete_idempotent {V : Type} (s : Store V) (sid : String) (h : s.up = true) :
    (∀ pts, getColl s (collectionName sid) = some pts →
      delete_session_endpoint s sid =
        ((⟨delAllC (collectionName sid) s.colls, true⟩, ⟨true⟩),
          [.bDelete (collectionName sid)]) ∧
      getColl (⟨delAllC (collectionName sid) s.colls, true⟩ : Store V)
        (collectionName sid) = none) ∧
    (getColl s (collectionName sid) = none →
      delete_session_endpoint s sid = ((s, ⟨false⟩), [.bDelete (collectionName sid)])) ∧
    delete_session_endpoint (delete_session_endpoint s sid).1.1 sid =
      (((delete_session_endpoint s sid).1.1, ⟨false⟩), [.bDelete (collectionName sid)]) := by
  have hcs := delete_collection_cases s sid h
  refine ⟨?_, ?_, ?_⟩
  · intro pts hpts
    have h1 := hcs.1 (by rw [hpts]; simp)
    constructor
    · rw [delete_session_endpoint, h1]
      simp [h]
    · rw [getColl]
      exact (findC_eq_none_iff _ _).mpr (not_mem_map_fst_delAllC _ _)
  · intro hnone
    rw [delete_session_endpoint, hcs.2 hnone]
  · rcases hg : getColl s (collectionName sid) with _ | pts
    · have h1 := hcs.2 hg
      have hd1 : delete_session_endpoint s sid =
          ((s, ⟨false⟩), [.bDelete (collectionName sid)]) := by
        rw [delete_session_endpoint, h1]
      rw [hd1]
      exact hd1
    · have h1 := hcs.1 (by rw [hg]; simp)
      have hd1 : delete_session_endpoint s sid =
          ((⟨delAllC (collectionName sid) s.colls, s.up⟩, ⟨true⟩),
            [.bDelete (collectionName sid)]) := by
        rw [delete_session_endpoint, h1]
      rw [hd1]
      have hup2 : (⟨delAllC (collectionName sid) s.colls, s.up⟩ : Store V).up = true := h
      have hn2 : getColl (⟨delAllC (collectionName sid) s.colls, s.up⟩ : Store V)
          (collectionName sid) = none := by
        rw [getColl]
        exact (findC_eq_none_iff _ _).mpr (not_mem_map_fst_delAllC _ _)
      rw [delete_session_endpoint,
        (delete_collection_cases _ sid hup2).2 hn2]

/-- Witness for C6 at a concrete indexed session. -/
theorem delete_idempotent_witness :
    ((⟨[(collectionName "s1", [⟨0, (), ⟨"a", "b"⟩⟩])], true⟩ : Store Unit).up = true) ∧
    (getColl (⟨[(collectionName "s1", [⟨0, (), ⟨"a", "b"⟩⟩])], true⟩ : Store Unit)
        (collectionName "s1") = some [⟨0, (), ⟨"a", "b"⟩⟩] ∧
      (delete_session_endpoint
        (⟨[(collectionName "s1", [⟨0, (), ⟨"a", "b"⟩⟩])], true⟩ : Store Unit) "s1").1.2 =
        ⟨true⟩) := by
  refine ⟨rfl, by decide, ?_⟩
  have hd := delete_idempotent
    (⟨[(collectionName "s1", [⟨0, (), ⟨"a", "b"⟩⟩])], true⟩ : Store Unit) "s1" rfl
  have h1 := (hd.1 [⟨0, (), ⟨"a", "b"⟩⟩] (by decide)).1
  rw [h1]

/-- C2: after indexing two distinct sessions, a search on the first returns
only names from the list indexed for it — never a name indexed only under the
other session — and the collection-name derivation from session id is 1:1. -/
theorem session_isolation {V : Type} (E : EmbedModel V) (s σ1 σ2 : Store V)
    (s1 s2 : String) (t1 t2 : List Tool) (r1 r2 : IndexResponse) (q : String) (k : Nat)
    (hne : s1 ≠ s2)
    (h1 : (index_endpoint E s ⟨s1, t1⟩).1 = .ok (σ1, r1))
    (h2 : (index_endpoint E σ1 ⟨s2, t2⟩).1 = .ok (σ2, r2)) :
    (∀ r ∈ (search_endpoint E σ2 ⟨s1, q, k⟩).1.tools,
      r.name ∈ t1.map (fun t => t.name)) ∧
    (∀ a b : String, collectionName a = collectionName b → a = b) := by
  have hup : s.up = true := index_endpoint_ok_up E s _ _ h1
  rw [index_endpoint_ok E s s1 t1 hup] at h1
  have h1e := Except.ok.inj h1
  have hσ1 : σ1 = ⟨(collectionName s1, indexedPoints E t1) ::
      delAllC (collectionName s1) s.colls, true⟩ := (congrArg Prod.fst h1e).symm
  subst hσ1
  rw [index_endpoint_ok E _ s2 t2 rfl] at h2
  have h2e := Except.ok.inj h2
  have hσ2 : σ2 = ⟨(collectionName s2, indexedPoints E t2) ::
      delAllC (collectionName s2) ((collectionName s1, indexedPoints E t1) ::
        delAllC (collectionName s1) s.colls), true⟩ := (congrArg Prod.fst h2e).symm
  subst hσ2
  have hne12 : collectionName s1 ≠ collectionName s2 :=
    fun hcn => hne (collectionName_injective _ _ hcn)
  have hcoll : getColl (⟨(collectionName s2, indexedPoints E t2) ::
      delAllC (collectionName s2) ((collectionName s1, indexedPoints E t1) ::
        delAllC (collectionName s1) s.colls), true⟩ : Store V) (collectionName s1) =
      some (indexedPoints E t1) := by
    rw [getColl_build, if_neg hne12]
    simp [findC]
  refine ⟨?_, collectionName_injective⟩
  intro r hr
  have hmem := search_endpoint_names E _ ⟨s1, q, k⟩ (indexedPoints E t1) hcoll r hr
  rw [indexedPoints_map_name] at hmem
  exact hmem

/-- Witness for C2: two concretely indexed sessions. -/
theorem session_isolation_witness :
    (("s1" : String) ≠ "s2" ∧
      (index_endpoint unitModel (⟨[], true⟩ : Store Unit)
        ⟨"s1", [⟨"alpha", "x", none⟩]⟩).1 =
        .ok (⟨[("tools_s1", [⟨0, (), ⟨"alpha", "x"⟩⟩])], true⟩, ⟨1, "s1"⟩) ∧
      (index_endpoint unitModel (⟨[("tools_s1", [⟨0, (), ⟨"alpha", "x"⟩⟩])], true⟩ : Store Unit)
        ⟨"s2", [⟨"beta", "y", none⟩]⟩).1 =
        .ok (⟨[("tools_s2", [⟨0, (), ⟨"beta", "y"⟩⟩]),
          ("tools_s1", [⟨0, (), ⟨"alpha", "x"⟩⟩])], true⟩, ⟨1, "s2"⟩)) ∧
    ((∀ r ∈ (search_endpoint unitModel
        (⟨[("tools_s2", [⟨0, (), ⟨"beta", "y"⟩⟩]),
          ("tools_s1", [⟨0, (), ⟨"alpha", "x"⟩⟩])], true⟩ : Store Unit)
        ⟨"s1", "q", 3⟩).1.tools,
      r.name ∈ [Tool.mk "alpha" "x" none].map (fun t => t.name)) ∧
    (∀ a b : String, collectionName a = collectionName b → a = b)) :=
  ⟨⟨by decide, rfl, rfl⟩,
    session_isolation unitModel ⟨[], true⟩
      ⟨[("tools_s1", [⟨0, (), ⟨"alpha", "x"⟩⟩])], true⟩
      ⟨[("tools_s2", [⟨0, (), ⟨"beta", "y"⟩⟩]), ("tools_s1", [⟨0, (), ⟨"alpha", "x"⟩⟩])], true⟩
      "s1" "s2" [⟨"alpha", "x", none⟩] [⟨"beta", "y", none⟩] ⟨1, "s1"⟩ ⟨1, "s2"⟩ "q" 3
      (by decide) rfl rfl⟩

/-- C3: re-indexing a session is delete-then-create — after a second
successful `IndexTools` the collection holds exactly the new points, searches
return only new names, and the final state (store and response) is identical
to indexing the new list directly: retrying is idempotent in final state. -/
theorem reindex_idempotent {V : Type} (E : EmbedModel V) (s σ1 σ2 : Store V)
    (sid : String) (t1 t2 : List Tool) (r1 r2 : IndexResponse)
    (h1 : (index_endpoint E s ⟨sid, t1⟩).1 = .ok (σ1, r1))
    (h2 : (index_endpoint E σ1 ⟨sid, t2⟩).1 = .ok (σ2, r2)) :
    getColl σ2 (collectionName sid) = some (indexedPoints E t2) ∧
    (∀ q k r, r ∈ (search_endpoint E σ2 ⟨sid, q, k⟩).1.tools →
      r.name ∈ t2.map (fun t => t.name)) ∧
    (index_endpoint E s ⟨sid, t2⟩).1 = .ok (σ2, r2) := by
  have hup : s.up = true := index_endpoint_ok_up E s _ _ h1
  rw [index_endpoint_ok E s sid t1 hup] at h1
  have h1e := Except.ok.inj h1
  have hσ1 : σ1 = ⟨(collectionName sid, indexedPoints E t1) ::
      delAllC (collectionName sid) s.colls, true⟩ := (congrArg Prod.fst h1e).symm
  subst hσ1
  rw [index_endpoint_ok E _ sid t2 rfl] at h2
  have h2e := Except.ok.inj h2
  have hσ2 : σ2 = ⟨(collectionName sid, indexedPoints E t2) ::
      delAllC (collectionName sid) ((collectionName sid, indexedPoints E t1) ::
        delAllC (collectionName sid) s.colls), true⟩ := (congrArg Prod.fst h2e).symm
  have hr2 : r2 = ⟨t2.length, sid⟩ := (congrArg Prod.snd h2e).symm
  subst hσ2
  subst hr2
  have hd : delAllC (collectionName sid) ((collectionName sid, indexedPoints E t1) ::
      delAllC (collectionName sid) s.colls) = delAllC (collectionName sid) s.colls := by
    simp only [delAllC, if_pos rfl]
    exact delAllC_delAllC _ _
  have hcoll : getColl (⟨(collectionName sid, indexedPoints E t2) ::
      delAllC (collectionName sid) ((collectionName sid, indexedPoints E t1) ::
        delAllC (collectionName sid) s.colls), true⟩ : Store V) (collectionName sid) =
      some (indexedPoints E t2) := by
    rw [getColl_build, if_pos rfl]
  refine ⟨hcoll, ?_, ?_⟩
  · intro q k r hr
    have hmem := search_endpoint_names E _ ⟨sid, q, k⟩ (indexedPoints E t2) hcoll r hr
    rw [indexedPoints_map_name] at hmem
    exact hmem
  · rw [index_endpoint_ok E s sid t2 hup, hd]

/-- Witness for C3: index two tools, then re-index with one different tool. -/
theorem reindex_idempotent_witness :
    ((index_endpoint unitModel (⟨[], true⟩ : Store Unit)
        ⟨"s1", [⟨"a", "x", none⟩, ⟨"b", "y", none⟩]⟩).1 =
      .ok (⟨[("tools_s1", [⟨0, (), ⟨"a", "x"⟩⟩, ⟨1, (), ⟨"b", "y"⟩⟩])], true⟩, ⟨2, "s1"⟩) ∧
      (index_endpoint unitModel
        (⟨[("tools_s1", [⟨0, (), ⟨"a", "x"⟩⟩, ⟨1, (), ⟨"b", "y"⟩⟩])], true⟩ : Store Unit)
        ⟨"s1", [⟨"c", "z", none⟩]⟩).1 =
      .ok (⟨[("tools_s1", [⟨0, (), ⟨"c", "z"⟩⟩])], true⟩, ⟨1, "s1"⟩)) ∧
    (getColl (⟨[("tools_s1", [⟨0, (), ⟨"c", "z"⟩⟩])], true⟩ : Store Unit)
        (collectionName "s1") = some (indexedPoints unitModel [⟨"c", "z", none⟩]) ∧
      (∀ q k r, r ∈ (search_endpoint unitModel
          (⟨[("tools_s1", [⟨0, (), ⟨"c", "z"⟩⟩])], true⟩ : Store Unit) ⟨"s1", q, k⟩).1.tools →
        r.name ∈ [Tool.mk "c" "z" none].map (fun t => t.name)) ∧
      (index_endpoint unitModel (⟨[], true⟩ : Store Unit) ⟨"s1", [⟨"c", "z", none⟩]⟩).1 =
        .ok (⟨[("tools_s1", [⟨0, (), ⟨"c", "z"⟩⟩])], true⟩, ⟨1, "s1"⟩)) :=
  ⟨⟨rfl, rfl⟩,
    reindex_idempotent unitModel ⟨[], true⟩
      ⟨[("tools_s1", [⟨0, (), ⟨"a", "x"⟩⟩, ⟨1, (), ⟨"b", "y"⟩⟩])], true⟩
      ⟨[("tools_s1", [⟨0, (), ⟨"c", "z"⟩⟩])], true⟩
      "s1" [⟨"a", "x", none⟩, ⟨"b", "y", none⟩] [⟨"c", "z", none⟩] ⟨2, "s1"⟩ ⟨1, "s1"⟩
      rfl rfl⟩

/-- C4: with the backend reachable, `/index` recreates the collection and
stores exactly the built points (composite documents, ids `0..n-1` in input
order, payload `{name, description}`), issues exactly one batched embedding
call and a single upsert write, and returns `indexed_count = n`. -/
theorem index_batched {V : Type} (E : EmbedModel V) (s : Store V) (sid : String)
    (tools : List Tool) (h : s.up = true) :
    (index_endpoint E s ⟨sid, tools⟩).1 =
      .ok (⟨(collectionName sid, indexedPoints E tools) ::
          delAllC (collectionName sid) s.colls, true⟩, ⟨tools.length, sid⟩) ∧
    ((index_endpoint E s ⟨sid, tools⟩).2).filter (fun e => e.isEmbed) =
      [.embedBatch (tools.map compositeDoc)] ∧
    ((index_endpoint E s ⟨sid, tools⟩).2).filter (fun e => e.isUpsert) =
      [.bUpsert (collectionName sid) tools.length] ∧
    (indexedPoints E tools).map (fun p => p.id) = List.range tools.length ∧
    (indexedPoints E tools).map (fun p => p.payload) =
      tools.map (fun t => ⟨t.name, t.description⟩) :=
  ⟨index_endpoint_ok E s sid tools h,
   index_endpoint_events_embed E s sid tools h,
   index_endpoint_events_upsert E s sid tools h,
   indexedPoints_map_id E tools,
   indexedPoints_map_payload E tools⟩

/-- Witness for C4 on a concrete one-tool index. -/
theorem index_batched_witness :
    ((⟨[], true⟩ : Store Unit).up = true) ∧
    ((index_endpoint unitModel (⟨[], true⟩ : Store Unit) ⟨"s1", [⟨"a", "d", none⟩]⟩).1 =
      .ok (⟨[(collectionName "s1", indexedPoints unitModel [⟨"a", "d", none⟩])], true⟩,
        ⟨1, "s1"⟩) ∧
    ((index_endpoint unitModel (⟨[], true⟩ : Store Unit)
        ⟨"s1", [⟨"a", "d", none⟩]⟩).2).filter (fun e => e.isEmbed) =
      [.embedBatch ([Tool.mk "a" "d" none].map compositeDoc)] ∧
    ((index_endpoint unitModel (⟨[], true⟩ : Store Unit)
        ⟨"s1", [⟨"a", "d", none⟩]⟩).2).filter (fun e => e.isUpsert) =
      [.bUpsert (collectionName "s1") 1] ∧
    (indexedPoints unitModel [⟨"a", "d", none⟩]).map (fun p => p.id) = List.range 1 ∧
    (indexedPoints unitModel [⟨"a", "d", none⟩]).map (fun p => p.payload) =
      [Tool.mk "a" "d" none].map (fun t => ⟨t.name, t.description⟩)) :=
  ⟨rfl, index_batched unitModel ⟨[], true⟩ "s1" [⟨"a", "d", none⟩] rfl⟩

/-- C10: indexing the empty tool list succeeds with `indexed_count = 0`,
leaves a fresh empty collection, and every subsequent search on the session
returns the empty list with success status. -/
theorem index_empty_list {V : Type} (E : EmbedModel V) (s : Store V) (sid : String)
    (h : s.up = true) :
    ∃ σ : Store V, (index_endpoint E s ⟨sid, []⟩).1 = .ok (σ, ⟨0, sid⟩) ∧
      getColl σ (collectionName sid) = some [] ∧
      ∀ q k, (search_endpoint E σ ⟨sid, q, k⟩).1 = ⟨[]⟩ := by
  refine ⟨⟨(collectionName sid, []) :: delAllC (collectionName sid) s.colls, true⟩, ?_, ?_, ?_⟩
  · have hk := index_endpoint_ok E s sid [] h
    simpa [indexedPoints, mkPoints] using hk
  · rw [getColl_build, if_pos rfl]
  · intro q k
    have hcoll : getColl (⟨(collectionName sid, []) ::
        delAllC (collectionName sid) s.colls, true⟩ : Store V) (collectionName sid) =
        some [] := by
      rw [getColl_build, if_pos rfl]
    have hf := search_similar_found E _ sid q k [] rfl hcoll
    simp [search_endpoint, hf, scorePoints, sortDesc]

/-- Witness for C10 on a concrete session. -/
theorem index_empty_list_witness :
    ((⟨[], true⟩ : Store Unit).up = true) ∧
    (∃ σ : Store Unit,
      (index_endpoint unitModel (⟨[], true⟩ : Store Unit) ⟨"s9", []⟩).1 = .ok (σ, ⟨0, "s9"⟩) ∧
      getColl σ (collectionName "s9") = some [] ∧
      ∀ q k, (search_endpoint unitModel σ ⟨"s9", q, k⟩).1 = ⟨[]⟩) :=
  ⟨rfl, index_empty_list unitModel ⟨[], true⟩ "s9" rfl⟩

/-- C7 counterexample: with the backend unreachable and the session's
collection present, the delete endpoint swallows the failure — it returns the
same success-shaped `deleted := false` response as a successful no-op, leaving
the collection in place, instead of propagating a hard error. -/
theorem delete_swallows_backend_failure :
    delete_session_endpoint
        (⟨[(collectionName "s1", [⟨0, (), ⟨"a", "b"⟩⟩])], false⟩ : Store Unit) "s1" =
      ((⟨[(collectionName "s1", [⟨0, (), ⟨"a", "b"⟩⟩])], false⟩, ⟨false⟩),
        [.bDelete (collectionName "s1")]) ∧
    getColl (⟨[(collectionName "s1", [⟨0, (), ⟨"a", "b"⟩⟩])], false⟩ : Store Unit)
      (collectionName "s1") = some [⟨0, (), ⟨"a", "b"⟩⟩] :=
  ⟨rfl, rfl⟩

/-- C7 amended: a backend failure during `/index` propagates to the caller as
a hard 500 error, but during delete it is silently swallowed into a
`deleted := false` success response with the store unchanged. -/
theorem index_hard_delete_soft {V : Type} (E : EmbedModel V) (s : Store V)
    (req : IndexRequest) (sid : String) (h : s.up = false) :
    (index_endpoint E s req).1 = .error ⟨500, .unavailable⟩ ∧
    delete_session_endpoint s sid = ((s, ⟨false⟩), [.bDelete (collectionName sid)]) :=
  ⟨index_endpoint_down E s req h,
   by rw [delete_session_endpoint, delete_collection_down s sid h]⟩

/-- Witness for the amended C7 on a concrete unreachable store. -/
theorem index_hard_delete_soft_witness :
    ((⟨[], false⟩ : Store Unit).up = false) ∧
    ((index_endpoint unitModel (⟨[], false⟩ : Store Unit) ⟨"s1", []⟩).1 =
        .error ⟨500, .unavailable⟩ ∧
      delete_session_endpoint (⟨[], false⟩ : Store Unit) "s1" =
        (((⟨[], false⟩ : Store Unit), ⟨false⟩), [.bDelete (collectionName "s1")])) :=
  ⟨rfl, index_hard_delete_soft unitModel ⟨[], false⟩ ⟨"s1", []⟩ "s1" rfl⟩

/-- C8 counterexample: an empty (but present) query string is accepted by
request validation, and the search pipeline then issues both an embedding
call and a backend call — the empty query is not rejected. -/
theorem empty_query_reaches_backend :
    parseSearchRequest ⟨some "s1", some "", none⟩ = .ok ⟨"s1", "", 15⟩ ∧
    (handleSearch unitModel (⟨[], true⟩ : Store Unit) ⟨some "s1", some "", none⟩).2 =
      [.embedSingle "", .bSearch (collectionName "s1") 15] ∧
    (Ev.embedSingle "").isEmbed = true ∧
    (Ev.bSearch (collectionName "s1") 15).isBackend = true :=
  ⟨rfl, rfl, rfl, rfl⟩

/-- C8 amended: requests with missing required fields — a missing query on
search, a tool missing its name or description on index — fail validation
with a 422 before any embedding or backend call is issued; an empty query
string, however, is a valid `str` and is accepted. -/
theorem validation_gates_calls :
    (∀ (V : Type) (E : EmbedModel V) (s : Store V) (raw : RawSearchRequest) (e : VErr),
      parseSearchRequest raw = .error e → handleSearch E s raw = (.error e, [])) ∧
    (∀ (V : Type) (E : EmbedModel V) (s : Store V) (raw : RawIndexRequest) (e : VErr),
      parseIndexRequest raw = .error e → handleIndex E s raw = (.error e, [])) ∧
    (∀ (sid : String) (k : Option Nat), parseSearchRequest ⟨some sid, none, k⟩ = .error ⟨422⟩) ∧
    (∀ (d p : Option String), parseTool ⟨none, d, p⟩ = .error ⟨422⟩) ∧
    (∀ (n p : Option String), parseTool ⟨n, none, p⟩ = .error ⟨422⟩) ∧
    (∀ sid : String, parseSearchRequest ⟨some sid, some "", none⟩ = .ok ⟨sid, "", 15⟩) := by
  refine ⟨?_, ?_, ?_, ?_, ?_, ?_⟩
  · intro V E s raw e hp
    simp [handleSearch, hp]
  · intro V E s raw e hp
    simp [handleIndex, hp]
  · intro sid k
    rfl
  · intro d p
    rfl
  · intro n p
    rcases n with _ | nm <;> rfl
  · intro sid
    rfl

/-- Witness for the amended C8 at a concrete missing-query request. -/
theorem validation_gates_calls_witness :
    parseSearchRequest ⟨some "s1", none, none⟩ = .error ⟨422⟩ ∧
    handleSearch unitModel (⟨[], true⟩ : Store Unit) ⟨some "s1", none, none⟩ =
      (.error ⟨422⟩, []) :=
  ⟨rfl, validation_gates_calls.1 Unit unitModel ⟨[], true⟩ ⟨some "s1", none, none⟩ ⟨422⟩ rfl⟩

lemma map_compositeDoc_strip (t1 t2 : List Tool) (h : t1.map stripT = t2.map stripT) :
    t1.map compositeDoc = t2.map compositeDoc := by
  have h1 : ∀ l : List Tool, l.map compositeDoc =
      (l.map stripT).map (fun pr => pr.1 ++ ": " ++ pr.2) := by
    intro l
    rw [List.map_map]
    rfl
  rw [h1, h1, h]

lemma mkPoints_strip_congr {V : Type} (t1 t2 : List Tool)
    (h : t1.map stripT = t2.map stripT) :
    ∀ (i : Nat) (vs : List V), mkPoints i (t1.zip vs) = mkPoints i (t2.zip vs) := by
  induction t1 generalizing t2 with
  | nil =>
    have ht2 : t2 = [] := by
      rcases t2 with _ | ⟨b, t2s⟩
      · rfl
      · simp [stripT] at h
    subst ht2
    intro i vs
    rfl
  | cons a t1s ih =>
    rcases t2 with _ | ⟨b, t2s⟩
    · simp [stripT] at h
    · rw [List.map_cons, List.map_cons] at h
      have hhd : stripT a = stripT b := (List.cons.inj h).1
      have htl : t1s.map stripT = t2s.map stripT := (List.cons.inj h).2
      have hn : a.name = b.name := congrArg Prod.fst hhd
      have hdsc : a.description = b.description := congrArg Prod.snd hhd
      intro i vs
      rcases vs with _ | ⟨v, vss⟩
      · rfl
      · simp only [List.zip_cons_cons, mkPoints]
        rw [hn, hdsc]
        exact congrArg _ (ih t2s htl (i + 1) vss)

lemma insert_points_strip_congr {V : Type} (E : EmbedModel V) (sid : String)
    (t1 t2 : List Tool) (h : t1.map stripT = t2.map stripT) :
    ∀ s : Store V, insert_points E s sid t1 = insert_points E s sid t2 := by
  intro s
  have ht := map_compositeDoc_strip t1 t2 h
  have hp := mkPoints_strip_congr t1 t2 h 0 ((t2.map compositeDoc).map E.embed)
  simp only [insert_points, generate_embeddings_batch, ht, hp]

/-- C9: the optional `parameters` field never influences indexing or search —
tool lists equal up to `parameters` index to identical stored state, and all
subsequent searches on the resulting stores are identical. -/
theorem parameters_ignored {V : Type} (E : EmbedModel V) (s : Store V) (sid : String)
    (t1 t2 : List Tool) (h : t1.map stripT = t2.map stripT) :
    index_endpoint E s ⟨sid, t1⟩ = index_endpoint E s ⟨sid, t2⟩ ∧
    (∀ σ1 σ2 r1 r2, (index_endpoint E s ⟨sid, t1⟩).1 = .ok (σ1, r1) →
      (index_endpoint E s ⟨sid, t2⟩).1 = .ok (σ2, r2) →
      σ1 = σ2 ∧ ∀ q k, search_endpoint E σ1 ⟨sid, q, k⟩ = search_endpoint E σ2 ⟨sid, q, k⟩) := by
  have hins := insert_points_strip_congr E sid t1 t2 h
  have hidx : index_endpoint E s ⟨sid, t1⟩ = index_endpoint E s ⟨sid, t2⟩ := by
    simp only [index_endpoint, hins]
  refine ⟨hidx, ?_⟩
  intro σ1 σ2 r1 r2 h1 h2
  rw [hidx] at h1
  rw [h1] at h2
  have hpair := Except.ok.inj h2
  have hσ : σ1 = σ2 := congrArg Prod.fst hpair
  exact ⟨hσ, fun q k => by rw [hσ]⟩

/-- Witness for C9: two tool lists that differ only in `parameters`. -/
theorem parameters_ignored_witness :
    ([Tool.mk "a" "d" (some "schema")].map stripT = [Tool.mk "a" "d" none].map stripT) ∧
    index_endpoint unitModel (⟨[], true⟩ : Store Unit) ⟨"s1", [⟨"a", "d", some "schema"⟩]⟩ =
      index_endpoint unitModel (⟨[], true⟩ : Store Unit) ⟨"s1", [⟨"a", "d", none⟩]⟩ :=
  ⟨by decide,
    (parameters_ignored unitModel ⟨[], true⟩ "s1"
      [⟨"a", "d", some "schema"⟩] [⟨"a", "d", none⟩] (by decide)).1⟩
